import Mathlib

/-!
# HTTP adapter over a virtual file system (`restful.js`)

A shallow embedding of `setup(mount, vfs, mountOptions)` from `restful.js`:
the streaming listing encoder `jsonEncoder`, the error mapper `abort`, the
path resolution and the per-method flows of the request handler.

Conventions of the embedding.

* JavaScript strings are `String`; `s.substr`, `s[s.length - 1]`,
  `indexOf`, `split` are written on the character list of the string.
* A property that the source tests with `hasOwnProperty` or for truthiness
  is an `Option` field; truthiness of the carried value is decided by the
  functions named `truthy`.
* The response object `res` is a record that the flows update; the calls
  made on the backend `vfs` are collected, in order, in the outcome.
* Built-ins whose result the adapter only passes along (`unescape`,
  `JSON.parse`, `JSON.stringify`, the clock) are parameters.
-/

namespace Restful

/-! ## Strings -/

/-- The test `s[s.length - 1] === c` of the source. -/
def lastCharIs (s : String) (c : Char) : Bool :=
  s.data.getLast? == some c

/-- The test `s.substr(0, p.length) === p`. -/
def hasPrefix (s p : String) : Bool :=
  String.mk (s.data.take p.length) == p

/-- The call `s.substr(n)` for `0 ≤ n`. -/
def substrFrom (s : String) (n : Nat) : String :=
  String.mk (s.data.drop n)

/-- The test `s` ends with `suf`, as the anchor `$` of a regular expression
without flags decides it. -/
def endsWith (s suf : String) : Bool :=
  suf.data.isSuffixOf s.data

/-- The match `mime.match(/(directory|folder)$/)` as a boolean. -/
def isContainerMime (mime : String) : Bool :=
  endsWith mime "directory" || endsWith mime "folder"

/-! ## Errors and the response -/

/-- An error value as `abort` receives it: a string (such as
`"Unsupported HTTP method"`) or an object with optional `code` and `stack`
properties; `text` is what the object converts to in a string
concatenation. -/
inductive JsErr where
  | str (s : String)
  | obj (code : Option String) (stack : Option String) (text : String)
  deriving DecidableEq, Repr

namespace JsErr

/-- The value of `if (err)`: every object is truthy, a string is truthy when
it is not empty. -/
def truthy : JsErr → Bool
  | str s => s != ""
  | obj _ _ _ => true

/-- The property `err.code`; a string has none. -/
def code : JsErr → Option String
  | str _ => none
  | obj c _ _ => c

/-- The expression `err.stack || err`, as it is printed or concatenated. -/
def stackOrSelf : JsErr → String
  | str s => s
  | obj _ stack text =>
    match stack with
    | some s => if s != "" then s else text
    | none => text

end JsErr

/-- A readable stream handed over by the backend: the object stream of a
listing or the byte stream of a file. The adapter never looks inside;
it pipes it. -/
structure VStream where
  label : String
  deriving DecidableEq, Repr

/-- What has been done with the response body. -/
inductive Body where
  | pending
  | ended (text : String)
  | pipedRaw (s : VStream)
  | pipedJson (s : VStream) (base : String)
  deriving DecidableEq, Repr

/-- The response object `res`; `statusCode` is 200 until assigned. -/
structure Response where
  statusCode : Nat := 200
  headers : List (String × String) := []
  body : Body := Body.pending
  deriving DecidableEq, Repr

namespace Response

/-- The call `res.setHeader(name, value)`: the value replaces an earlier one
of the same name. -/
def setHeader (res : Response) (name value : String) : Response :=
  { res with headers := res.headers.filter (fun h => h.1 != name) ++ [(name, value)] }

/-- The header currently set under `name`. -/
def header (res : Response) (name : String) : Option String :=
  (res.headers.find? (fun h => h.1 == name)).map Prod.snd

/-- The call `res.end(text)`; `res.end()` is `finish ""`. -/
def finish (res : Response) (text : String) : Response :=
  { res with body := Body.ended text }

end Response

/-- The value of `if (code)` for an optional number: given and not `0`. -/
def numTruthy : Option Nat → Bool
  | some c => c != 0
  | none => false

/-- The status selected by `abort(err, code)`, lines 68 to 73. -/
def abortStatus (err : JsErr) (code : Option Nat) : Nat :=
  if numTruthy code then code.getD 0
  else if err.code == some "EBADREQUEST" then 400
  else if err.code == some "EACCESS" then 403
  else if err.code == some "ENOENT" then 404
  else if err.code == some "ENOTREADY" then 503
  else 500

/-- The function `abort(err, code)`: status, plain-text body with its byte
length, end of the response. -/
def abort (res : Response) (err : JsErr) (code : Option Nat) : Response :=
  let res := { res with statusCode := abortStatus err code }
  let message := err.stackOrSelf ++ "\n"
  let res := res.setHeader "Content-Type" "text/plain"
  let res := res.setHeader "Content-Length" (toString message.utf8ByteSize)
  res.finish message

/-! ## The listing encoder -/

/-- The stat record of a link target, of which the encoder reads `mime`. -/
structure LinkStat where
  mime : String
  size : Nat
  deriving DecidableEq, Repr

/-- A directory entry of the listing stream. `href` is absent until the
encoder assigns it. -/
structure Entry where
  name : String
  mime : String
  size : Nat
  linkStat : Option LinkStat := none
  href : Option String := none
  deriving DecidableEq, Repr

/-- The value of `if (path)` for an optional string: given and not empty. -/
def strTruthy : Option String → Bool
  | some s => s != ""
  | none => false

/-- The expression `entry.linkStat ? entry.linkStat.mime : entry.mime`. -/
def Entry.effectiveMime (entry : Entry) : String :=
  match entry.linkStat with
  | some l => l.mime
  | none => entry.mime

/-- Lines 16 to 22: the assignment of `entry.href` under a truthy `path`. -/
def augment (path : Option String) (entry : Entry) : Entry :=
  if strTruthy path then
    let href := path.getD "" ++ entry.name
    if isContainerMime entry.effectiveMime then
      { entry with href := some (href ++ "/") }
    else
      { entry with href := some href }
  else entry

/-- The state of one `jsonEncoder` instance: the closure variable `first`
and what the output stream has emitted so far. -/
structure Encoder where
  first : Bool := true
  emitted : List String := []
  ended : Bool := false
  deriving DecidableEq, Repr

namespace Encoder

/-- The listener of `"data"` on the input, lines 15 to 29. -/
def onData (stringify : Entry → String) (path : Option String) (st : Encoder)
    (entry : Entry) : Encoder :=
  let entry := augment path entry
  if st.first then
    { st with emitted := st.emitted ++ ["[\n  " ++ stringify entry], first := false }
  else
    { st with emitted := st.emitted ++ [",\n  " ++ stringify entry] }

/-- The listener of `"end"` on the input, lines 30 to 34. -/
def onEnd (st : Encoder) : Encoder :=
  if st.first then { st with emitted := st.emitted ++ ["[]"], ended := true }
  else { st with emitted := st.emitted ++ ["\n]"], ended := true }

/-- The concatenation of the chunks emitted as `"data"` on the output. -/
def text (st : Encoder) : String :=
  String.join st.emitted

end Encoder

/-- The encoder `jsonEncoder(input, path)` run on an input that delivers
`entries` and then ends. `stringify` is `JSON.stringify` on entries. -/
def jsonEncoder (stringify : Entry → String) (path : Option String)
    (entries : List Entry) : Encoder :=
  (entries.foldl (Encoder.onData stringify path) {}).onEnd

/-! ## Requests, backend results and options -/

/-- A JavaScript number as `parseInt` returns it: `NaN`, an integer that is
a double, or an infinity. -/
inductive JsNum where
  | nan
  | int (z : Int)
  | posInf
  | negInf
  deriving DecidableEq, Repr

/-- The unary minus on the numbers `parseInt` returns. -/
def JsNum.neg : JsNum → JsNum
  | JsNum.nan => JsNum.nan
  | JsNum.int z => JsNum.int (-z)
  | JsNum.posInf => JsNum.negInf
  | JsNum.negInf => JsNum.posInf

/-- The object `options.range`. -/
structure RangeOpt where
  start : Option JsNum := none
  end_ : Option JsNum := none
  etag : Option String := none
  deriving DecidableEq, Repr

/-- The parsed body of a POST, of which the adapter reads three properties. -/
structure PostMessage where
  renameFrom : Option String := none
  copyFrom : Option String := none
  linkTo : Option String := none
  deriving DecidableEq, Repr

/-- The property `req.content`. -/
inductive ReqContent where
  | absent
  | text (s : String)
  | object (m : PostMessage)
  deriving DecidableEq, Repr

/-- The write source `options.stream` of a PUT: the request itself, or a new
stream that emits the buffered `req.content` on the next tick. -/
inductive BodySource where
  | request
  | buffered (content : ReqContent)
  deriving DecidableEq, Repr

/-- The object `options` handed to every backend operation.
`encodingNull` is `options.encoding === null`. -/
structure Options where
  bucketId : String
  head : Bool := false
  etag : Option String := none
  range : Option RangeOpt := none
  encodingNull : Bool := false
  stream : Option BodySource := none
  from_ : Option String := none
  target : Option String := none
  deriving DecidableEq, Repr

/-- The object `meta.partialContent`. -/
structure PartialContent where
  start : Nat
  end_ : Nat
  size : Nat
  deriving DecidableEq, Repr

/-- The result `meta` of a backend operation; an absent property is `none`,
`notModified` is its truthiness. -/
structure Meta where
  etag : Option String := none
  mime : Option String := none
  size : Option Nat := none
  stream : Option VStream := none
  notModified : Bool := false
  partialContent : Option PartialContent := none
  rangeNotSatisfiable : Option JsErr := none
  deriving DecidableEq, Repr

/-- The operations of the backend `vfs`. -/
inductive VfsOp where
  | readfile | readdir | writefile | mkfile | mkdir | rmfile | rmdir
  | rename | copy | symlink | stat
  deriving DecidableEq, Repr

/-- One invocation `vfs.op(path, options, callback)`. -/
structure VfsCall where
  op : VfsOp
  path : String
  options : Options
  deriving DecidableEq, Repr

/-- The arguments `(err, meta)` with which the backend invokes the
callback, once per call. -/
structure Reply where
  err : Option JsErr := none
  meta : Meta := {}
  deriving DecidableEq, Repr

/-- A backend: the reply it gives to each call. -/
abbrev Vfs := VfsCall → Reply

/-- The exceptions the handler can raise. -/
inductive JsException where
  | referenceError (name : String)
  | typeError (what : String)
  | syntaxError (what : String)
  deriving DecidableEq, Repr

/-- The request `req` as the handler reads it. `contentLength` is the value
of the `content-length` header, a string of digits, as the number to which
the comparison `contentLength > 0` converts it. -/
structure Request where
  method : String
  pathname : String
  bucketId : Option String := none
  ifNoneMatch : Option String := none
  range : Option String := none
  ifRange : Option String := none
  contentLength : Option Nat := none
  host : Option String := none
  encrypted : Bool := false
  endEmitted : Bool := false
  content : ReqContent := ReqContent.absent
  deriving DecidableEq, Repr

/-- The argument `mountOptions` of `setup`. -/
structure MountOptions where
  readOnly : Bool := false
  autoIndex : Option String := none
  deriving DecidableEq, Repr

/-- The built-ins of the host whose results the adapter passes along. -/
structure Runtime where
  unescape : String → String
  pathJoin : String → String → String
  jsonParse : String → Except JsException PostMessage
  stringifyMeta : Meta → String
  now : String

/-- How the handler left the request. -/
inductive Completion where
  | responded
  | passed
  | threw (e : JsException)
  | outOfFuel
  deriving DecidableEq, Repr

/-- The effects of handling one request: the response, the backend calls in
order, and how the handler finished. -/
structure Outcome where
  res : Response
  calls : List VfsCall
  status : Completion
  deriving DecidableEq, Repr

deriving instance DecidableEq for Except

/-! ## Header parsing -/

/-- The call `s.indexOf(c)` on a character list: `-1` when `c` is absent. -/
def indexOfChar (c : Char) : List Char → Int
  | [] => -1
  | x :: xs =>
    if x = c then 0
    else
      let r := indexOfChar c xs
      if r < 0 then -1 else r + 1

/-- The call `s.split(c)` on a character list. -/
def splitChars (c : Char) : List Char → List (List Char)
  | [] => [[]]
  | x :: xs =>
    if x = c then [] :: splitChars c xs
    else
      match splitChars c xs with
      | h :: t => (x :: h) :: t
      | [] => [[x]]

/-- The white space that `parseInt` skips at the start of its argument. -/
def isJsWhiteSpace (c : Char) : Bool :=
  [0x9, 0xA, 0xB, 0xC, 0xD, 0x20, 0xA0, 0x1680, 0x2028, 0x2029, 0x202F, 0x205F,
    0x3000, 0xFEFF].contains c.toNat
    || (0x2000 ≤ c.toNat && c.toNat ≤ 0x200A)

/-- The test for a decimal digit, `0` to `9`. -/
def isDecDigit (c : Char) : Bool :=
  48 ≤ c.toNat && c.toNat ≤ 57

/-- The number written by a list of decimal digits. -/
def digitsValue (ds : List Char) : Nat :=
  ds.foldl (fun acc d => 10 * acc + (d.toNat - 48)) 0

/-- The least exponent `e`, from `e` on and within `fuel` further steps, for
which `n / 2 ^ e` fits in the 53 bits of a double's significand. -/
def doubleExponent (n : Nat) : Nat → Nat → Option Nat
  | 0, e => if n / 2 ^ e < 2 ^ 53 then some e else none
  | fuel + 1, e => if n / 2 ^ e < 2 ^ 53 then some e else doubleExponent n fuel (e + 1)

/-- The double nearest to the natural number `n`, as the runtime stores the
value of a digit run: `n` itself below `2 ^ 53`; above, `n` rounded to 53
significant bits, ties to the even significand; `Infinity` when the rounded
value reaches 2 to the power 1024, that is when no exponent up to 971
fits or the significand at exponent 971 is carried to `2 ^ 53`. -/
def toDouble (n : Nat) : JsNum :=
  if n < 2 ^ 53 then JsNum.int n
  else
    match doubleExponent n 970 1 with
    | none => JsNum.posInf
    | some e =>
      let q := n / 2 ^ e
      let r := n % 2 ^ e
      let half := 2 ^ (e - 1)
      let q := if half < r || (r == half && q % 2 == 1) then q + 1 else q
      if e == 971 && q == 2 ^ 53 then JsNum.posInf else JsNum.int (q * 2 ^ e : Nat)

/-- The call `parseInt(s, 10)`: leading white space, an optional sign, then
the longest run of decimal digits, whose value is stored as a double; `NaN`
when that run is empty. -/
def parseInt10 (s : List Char) : JsNum :=
  let cs := s.dropWhile isJsWhiteSpace
  let neg := cs.head? == some '-'
  let cs := if cs.head? == some '-' || cs.head? == some '+' then cs.tail else cs
  let ds := cs.takeWhile isDecDigit
  if ds.isEmpty then JsNum.nan
  else if neg then (toDouble (digitsValue ds)).neg
  else toDouble (digitsValue ds)

/-- Lines 93 to 102: the object `options.range` built from the `range`
header `h`; reading `parts[1].length` raises a `TypeError` when the text
after the first `=` holds no `-`. -/
def parseRange (h : String) (ifRange : Option String) : Except JsException RangeOpt :=
  let p := indexOfChar '=' h.data
  let parts := splitChars '-' (h.data.drop (p + 1).toNat)
  match parts with
  | p0 :: p1 :: _ =>
    let start := if p0.length != 0 then some (parseInt10 p0) else none
    let end_ := if p1.length != 0 then some (parseInt10 p1) else none
    Except.ok { start := start, end_ := end_, etag := ifRange }
  | _ => Except.error (JsException.typeError "parts[1] is undefined")

/-- Lines 80 to 86: the initial `options`, with `head` for a HEAD request. -/
def initOptions (req : Request) : Options :=
  { bucketId := req.bucketId.getD "", head := req.method == "HEAD" }

/-- Lines 90 to 103: the conditional and range fields of a GET. -/
def getOptions (req : Request) : Except JsException Options :=
  let options := initOptions req
  let options :=
    match req.ifNoneMatch with
    | some v => { options with etag := some v }
    | none => options
  match req.range with
  | some h =>
    match parseRange h req.ifRange with
    | Except.ok r => Except.ok { options with range := some r }
    | Except.error e => Except.error e
  | none => Except.ok options

/-! ## Path resolution -/

/-- Line 57: `if (mount[mount.length - 1] !== "/") mount += "/"`. -/
def normalizeMount (mount : String) : String :=
  if lastCharIs mount '/' then mount else mount ++ "/"

/-- Lines 50 to 63: the three early returns through `next()` and the
resolved `path`; `none` when the request is passed on. -/
def resolve (rt : Runtime) (mount : String) (cfg : MountOptions) (req : Request) :
    Option String :=
  if cfg.readOnly && !(req.method == "GET" || req.method == "HEAD") then none
  else if !strTruthy req.bucketId then none
  else
    let mount := normalizeMount mount
    let path := rt.unescape req.pathname
    if !hasPrefix path mount then none
    else some (substrFrom path (mount.length - 1))

/-! ## The flows of the handler -/

/-- The error of a callback when `if (err)` holds. -/
def Reply.failure (r : Reply) : Option JsErr :=
  r.err.filter JsErr.truthy

/-- The callback `function (err, meta) { if (err) return abort(err); res.end(); }`
of the PUT, DELETE and POST flows. -/
def finishPlain (res : Response) (r : Reply) : Response :=
  match r.failure with
  | some e => abort res e none
  | none => res.finish ""

/-- The value of `base` on line 152. -/
def listingBase (rt : Runtime) (mount path : String) (req : Request) : String :=
  (if req.encrypted then "https://" else "http://") ++ req.host.getD "undefined"
    ++ rt.pathJoin mount path

/-- Lines 130 to 165 of `onGet`: the response to a successful read. The
listeners registered on the stream and on the request are not part of the
state. -/
def respondGet (rt : Runtime) (mount path : String) (req : Request) (options : Options)
    (res : Response) (m : Meta) : Response :=
  match m.rangeNotSatisfiable.filter JsErr.truthy with
  | some e => abort res e (some 416)
  | none =>
    let res := match m.etag with
      | some t => res.setHeader "ETag" t
      | none => res
    let res := if m.notModified then { res with statusCode := 304 } else res
    let res := if m.partialContent.isSome then { res with statusCode := 206 } else res
    let res :=
      if m.stream.isSome || options.head then
        let res := match m.mime with
          | some t => res.setHeader "Content-Type" t
          | none => res
        let res := match m.size with
          | some sz =>
            let res := res.setHeader "Content-Length" (toString sz)
            match m.partialContent with
            | some pc =>
              res.setHeader "Content-Range"
                ("bytes " ++ toString pc.start ++ "-" ++ toString pc.end_ ++ "/"
                  ++ toString pc.size)
            | none => res
          | none => res
        if options.encodingNull then res.setHeader "Content-Type" "application/json"
        else res
      else res
    match m.stream with
    | some st =>
      if options.encodingNull then
        { res with body := Body.pipedJson st (listingBase rt mount path req) }
      else { res with body := Body.pipedRaw st }
    | none => res.finish ""

/-- The callback `onGet(err, meta)`, lines 120 to 166, with the closure
variables `tryAgain` and `options` as arguments. Each invocation of the
callback uses one unit of `fuel`. -/
def onGet (rt : Runtime) (vfs : Vfs) (mount path : String) (req : Request) :
    Nat → Bool → Options → Response → List VfsCall → Reply → Outcome
  | 0, _, _, res, calls, _ => { res := res, calls := calls, status := Completion.outOfFuel }
  | fuel + 1, tryAgain, options, res, calls, reply =>
    let res := res.setHeader "Date" rt.now
    match reply.failure with
    | some e =>
      if tryAgain then
        let options := { options with encodingNull := true }
        let call : VfsCall := { op := VfsOp.readdir, path := path, options := options }
        onGet rt vfs mount path req fuel false options res (calls ++ [call]) (vfs call)
      else
        { res := abort res e none, calls := calls, status := Completion.responded }
    | none =>
      { res := respondGet rt mount path req options res reply.meta, calls := calls,
        status := Completion.responded }

/-- Lines 88 to 168: the GET flow (also taken by HEAD). -/
def handleGet (rt : Runtime) (vfs : Vfs) (mount path : String) (cfg : MountOptions)
    (req : Request) (fuel : Nat) : Outcome :=
  match getOptions req with
  | Except.error e => { res := {}, calls := [], status := Completion.threw e }
  | Except.ok options =>
    if lastCharIs path '/' then
      if strTruthy cfg.autoIndex then
        let call : VfsCall :=
          { op := VfsOp.readfile, path := path ++ cfg.autoIndex.getD "", options := options }
        onGet rt vfs mount path req fuel true options {} [call] (vfs call)
      else
        let options := { options with encodingNull := true }
        let call : VfsCall := { op := VfsOp.readdir, path := path, options := options }
        onGet rt vfs mount path req fuel false options {} [call] (vfs call)
    else
      let call : VfsCall := { op := VfsOp.readfile, path := path, options := options }
      onGet rt vfs mount path req fuel false options {} [call] (vfs call)

/-- Lines 170 to 204: the PUT flow. -/
def handlePut (vfs : Vfs) (path : String) (req : Request) : Outcome :=
  let options := initOptions req
  if lastCharIs path '/' then
    let call : VfsCall := { op := VfsOp.mkdir, path := path, options := options }
    { res := finishPlain {} (vfs call), calls := [call], status := Completion.responded }
  else
    let command :=
      match req.contentLength with
      | some n => if n > 0 then VfsOp.writefile else VfsOp.mkfile
      | none => VfsOp.mkfile
    let options :=
      if req.endEmitted then { options with stream := some (BodySource.buffered req.content) }
      else { options with stream := some BodySource.request }
    let call : VfsCall := { op := command, path := path, options := options }
    { res := finishPlain {} (vfs call), calls := [call], status := Completion.responded }

/-- Lines 206 to 218: the DELETE flow. -/
def handleDelete (vfs : Vfs) (path : String) (req : Request) : Outcome :=
  let options := initOptions req
  let command := if lastCharIs path '/' then VfsOp.rmdir else VfsOp.rmfile
  let call : VfsCall := { op := command, path := path, options := options }
  { res := finishPlain {} (vfs call), calls := [call], status := Completion.responded }

/-- Line 222: `typeof(req.content) == 'string' ? JSON.parse(req.content) : req.content`,
as far as the three properties read from it; a missing content raises the
`TypeError` of the first property access. -/
def postMessage (rt : Runtime) (req : Request) : Except JsException PostMessage :=
  match req.content with
  | ReqContent.text s => rt.jsonParse s
  | ReqContent.object m => Except.ok m
  | ReqContent.absent => Except.error (JsException.typeError "message is undefined")

/-- Lines 220 to 245: the POST flow. The identifier `data` on line 238 is
bound nowhere in the module, so evaluating the argument of `abort` raises a
`ReferenceError` before `abort` is entered. -/
def handlePost (rt : Runtime) (vfs : Vfs) (path : String) (req : Request) : Outcome :=
  let options := initOptions req
  match postMessage rt req with
  | Except.error e => { res := {}, calls := [], status := Completion.threw e }
  | Except.ok message =>
    if strTruthy message.renameFrom then
      let call : VfsCall :=
        { op := VfsOp.rename, path := path, options := { options with from_ := message.renameFrom } }
      { res := finishPlain {} (vfs call), calls := [call], status := Completion.responded }
    else if strTruthy message.copyFrom then
      let call : VfsCall :=
        { op := VfsOp.copy, path := path, options := { options with from_ := message.copyFrom } }
      { res := finishPlain {} (vfs call), calls := [call], status := Completion.responded }
    else if strTruthy message.linkTo then
      let call : VfsCall :=
        { op := VfsOp.symlink, path := path, options := { options with target := message.linkTo } }
      { res := finishPlain {} (vfs call), calls := [call], status := Completion.responded }
    else
      { res := {}, calls := [], status := Completion.threw (JsException.referenceError "data") }

/-- Lines 246 to 252: the PROPFIND flow. -/
def handlePropfind (rt : Runtime) (vfs : Vfs) (path : String) (req : Request) : Outcome :=
  let call : VfsCall := { op := VfsOp.stat, path := path, options := initOptions req }
  let reply := vfs call
  let res : Response :=
    match reply.failure with
    | some e => abort {} e none
    | none =>
      (Response.setHeader {} "Content-Type" "application/json").finish
        (rt.stringifyMeta reply.meta ++ "\n")
  { res := res, calls := [call], status := Completion.responded }

/-- The request handler returned by `setup(mount, vfs, mountOptions)`,
lines 48 to 257. -/
def handle (rt : Runtime) (vfs : Vfs) (mount : String) (cfg : MountOptions) (req : Request)
    (fuel : Nat) : Outcome :=
  match resolve rt mount cfg req with
  | none => { res := {}, calls := [], status := Completion.passed }
  | some path =>
    if req.method == "HEAD" || req.method == "GET" then
      handleGet rt vfs (normalizeMount mount) path cfg req fuel
    else if req.method == "PUT" then handlePut vfs path req
    else if req.method == "DELETE" then handleDelete vfs path req
    else if req.method == "POST" then handlePost rt vfs path req
    else if req.method == "PROPFIND" then handlePropfind rt vfs path req
    else
      { res := abort {} (JsErr.str "Unsupported HTTP method") (some 501), calls := [],
        status := Completion.responded }

/-- Whether the `href` of an entry is set and ends with `/`. -/
def Entry.hrefEndsWithSlash (entry : Entry) : Bool :=
  match entry.href with
  | some h => lastCharIs h '/'
  | none => false

/-- A runtime on which the flows can be evaluated: paths without escapes,
`path.join` of a mount ending in `/` and a path starting with `/`. -/
def sampleRuntime : Runtime where
  unescape := id
  pathJoin := fun a b => a ++ substrFrom b 1
  jsonParse := fun _ => Except.error (JsException.syntaxError "Unexpected token")
  stringifyMeta := fun _ => "\x7b\x7d"
  now := "Thu, 01 Jan 1970 00:00:00 GMT"

/-- A backend that gives the same successful result `m` to every call. -/
def constVfs (m : Meta) : Vfs :=
  fun _ => { meta := m }

/-- A backend on which the index file is missing and the listing succeeds. -/
def indexMissingVfs : Vfs :=
  fun c =>
    if c.op == VfsOp.readfile then
      { err := some (JsErr.obj (some "ENOENT") none "Error: no such file") }
    else { meta := { stream := some { label := "listing" } } }

/-! ## Auxiliary facts -/

theorem foldl_append_eq (acc : String) (l : List String) :
    l.foldl (fun r s => r ++ s) acc = acc ++ String.join l := by
  induction l generalizing acc with
  | nil => simp [String.join]
  | cons a t ih =>
    simp only [List.foldl_cons, String.join]
    rw [ih, ih ("" ++ a)]
    simp [String.append_assoc]

theorem join_append (a b : List String) :
    String.join (a ++ b) = String.join a ++ String.join b := by
  simp only [String.join, List.foldl_append]
  rw [foldl_append_eq]
  rfl

theorem join_cons (a : String) (l : List String) :
    String.join (a :: l) = a ++ String.join l := by
  have h := join_append [a] l
  simpa [String.join] using h

theorem intercalate_go_eq (acc sep : String) (l : List String) :
    String.intercalate.go acc sep l = acc ++ String.join (l.map (fun x => sep ++ x)) := by
  induction l generalizing acc with
  | nil => simp [String.intercalate.go, String.join]
  | cons a t ih =>
    simp only [String.intercalate.go, List.map_cons]
    rw [ih, join_cons]
    simp [String.append_assoc]

theorem foldl_onData_rest (stringify : Entry → String) (path : Option String)
    (es : List Entry) (st : Encoder) (h : st.first = false) :
    (es.foldl (Encoder.onData stringify path) st).first = false ∧
    (es.foldl (Encoder.onData stringify path) st).ended = st.ended ∧
    (es.foldl (Encoder.onData stringify path) st).emitted
      = st.emitted ++ es.map (fun e => ",\n  " ++ stringify (augment path e)) := by
  induction es generalizing st with
  | nil => simp [h]
  | cons e t ih =>
    have h1 : (Encoder.onData stringify path st e).first = false := by
      simp [Encoder.onData, h]
    obtain ⟨a, b, c⟩ := ih (Encoder.onData stringify path st e) h1
    refine ⟨a, ?_, ?_⟩
    · rw [List.foldl_cons, b]; simp [Encoder.onData, h]
    · rw [List.foldl_cons, c]; simp [Encoder.onData, h]

theorem find_filter_ne (l : List (String × String)) (n : String) :
    (l.filter (fun h => h.1 != n)).find? (fun h => h.1 == n) = none := by
  induction l with
  | nil => rfl
  | cons a t ih =>
    rw [List.filter_cons]
    by_cases h : a.1 = n
    · have hb : (a.1 != n) = false := by simp [h]
      rw [hb]; simp
    · have hb : (a.1 != n) = true := by simp [h]
      have hc : (a.1 == n) = false := by simp [h]
      rw [hb, if_pos rfl, List.find?_cons, hc]; exact ih

theorem find_filter_other (l : List (String × String)) (n m : String) (h : m ≠ n) :
    (l.filter (fun h => h.1 != n)).find? (fun h => h.1 == m)
      = l.find? (fun h => h.1 == m) := by
  induction l with
  | nil => rfl
  | cons a t ih =>
    rw [List.filter_cons]
    by_cases h1 : a.1 = n
    · have h2 : a.1 ≠ m := fun e => h (e.symm.trans h1)
      have hb : (a.1 != n) = false := by simp [h1]
      have hc : (a.1 == m) = false := by simp [h2]
      rw [hb, List.find?_cons, hc]; simpa using ih
    · have hb : (a.1 != n) = true := by simp [h1]
      rw [hb, if_pos rfl, List.find?_cons, List.find?_cons, ih]

theorem header_setHeader_same (res : Response) (n v : String) :
    (res.setHeader n v).header n = some v := by
  simp [Response.setHeader, Response.header, List.find?_append, find_filter_ne]

theorem header_setHeader_other (res : Response) (n m v : String) (h : m ≠ n) :
    (res.setHeader n v).header m = res.header m := by
  have h' : n ≠ m := fun e => h e.symm
  simp [Response.setHeader, Response.header, List.find?_append, find_filter_other _ _ _ h, h']

theorem header_withStatus (res : Response) (c : Nat) (m : String) :
    Response.header { res with statusCode := c } m = res.header m := rfl

theorem header_withBody (res : Response) (b : Body) (m : String) :
    Response.header { res with body := b } m = res.header m := rfl

theorem header_of_headers (r : Response) (c : Nat) (b : Body) (m : String) :
    Response.header { statusCode := c, headers := r.headers, body := b } m = r.header m := rfl

theorem statusCode_setHeader (res : Response) (n v : String) :
    (res.setHeader n v).statusCode = res.statusCode := rfl

theorem onGet_success (rt : Runtime) (vfs : Vfs) (mount path : String) (req : Request)
    (fuel : Nat) (tryAgain : Bool) (options : Options) (res : Response)
    (calls : List VfsCall) (reply : Reply) (hok : reply.failure = none) :
    onGet rt vfs mount path req (fuel + 1) tryAgain options res calls reply
      = { res := respondGet rt mount path req options (res.setHeader "Date" rt.now) reply.meta,
          calls := calls, status := Completion.responded } := by
  simp [onGet, hok]

theorem onGet_calls_etag (rt : Runtime) (vfs : Vfs) (mount path : String) (req : Request)
    (x : Option String) (fuel : Nat) :
    ∀ (tryAgain : Bool) (options : Options) (res : Response) (calls : List VfsCall)
      (reply : Reply), options.etag = x → (∀ c ∈ calls, c.options.etag = x) →
      ∀ c ∈ (onGet rt vfs mount path req fuel tryAgain options res calls reply).calls,
        c.options.etag = x := by
  induction fuel with
  | zero => intro _ _ _ calls _ _ hc; simpa [onGet] using hc
  | succ n ih =>
    intro tryAgain options res calls reply ho hc
    unfold onGet
    cases hf : reply.failure with
    | none => simpa using hc
    | some e =>
      cases tryAgain with
      | false => simpa using hc
      | true =>
        simp only [if_true]
        apply ih
        · exact ho
        · intro c hmem
          rcases List.mem_append.mp hmem with h | h
          · exact hc c h
          · simp only [List.mem_singleton] at h
            subst h
            exact ho

theorem onGet_calls_head (rt : Runtime) (vfs : Vfs) (mount path : String) (req : Request)
    (first : VfsCall) (fuel : Nat) :
    ∀ (tryAgain : Bool) (options : Options) (res : Response) (calls : List VfsCall)
      (reply : Reply), calls.head? = some first →
      (onGet rt vfs mount path req fuel tryAgain options res calls reply).calls.head?
        = some first := by
  induction fuel with
  | zero => intro _ _ _ calls _ hc; simpa [onGet] using hc
  | succ n ih =>
    intro tryAgain options res calls reply hc
    unfold onGet
    cases hf : reply.failure with
    | none => simpa using hc
    | some e =>
      cases tryAgain with
      | false => simpa using hc
      | true =>
        simp only [if_true]
        apply ih
        cases calls with
        | nil => simp at hc
        | cons a t => simpa using hc

theorem getOptions_etag (req : Request) (options : Options) (v : String)
    (hh : req.ifNoneMatch = some v) (hg : getOptions req = Except.ok options) :
    options.etag = some v := by
  unfold getOptions at hg
  rw [hh] at hg
  cases hr : req.range with
  | none =>
    rw [hr] at hg
    simp only [Except.ok.injEq] at hg
    rw [← hg]
  | some h =>
    rw [hr] at hg
    simp only at hg
    cases hp : parseRange h req.ifRange with
    | error e => rw [hp] at hg; simp at hg
    | ok r =>
      rw [hp] at hg
      simp only [Except.ok.injEq] at hg
      rw [← hg]

theorem getLast_eq_append (l : List Char) (c : Char) (h : l.getLast? = some c) :
    ∃ init, l = init ++ [c] := by
  induction l with
  | nil => simp at h
  | cons a t ih =>
    cases t with
    | nil =>
      simp at h
      exact ⟨[], by simp [h]⟩
    | cons b u =>
      rw [List.getLast?_cons_cons] at h
      obtain ⟨init, hi⟩ := ih h
      exact ⟨a :: init, by rw [hi]; rfl⟩

theorem normalizeMount_data (mount : String) :
    ∃ init, (normalizeMount mount).data = init ++ ['/'] := by
  unfold normalizeMount
  by_cases h : lastCharIs mount '/' = true
  · rw [if_pos h]
    apply getLast_eq_append
    simpa [lastCharIs] using h
  · rw [if_neg h]
    exact ⟨mount.data, by simp [String.data_append]⟩

theorem resolve_under_mount (rt : Runtime) (mount : String) (cfg : MountOptions)
    (req : Request) (rest : String)
    (hgate : (cfg.readOnly && !(req.method == "GET" || req.method == "HEAD")) = false)
    (hb : strTruthy req.bucketId = true)
    (hp : rt.unescape req.pathname = normalizeMount mount ++ rest) :
    resolve rt mount cfg req = some ("/" ++ rest) := by
  obtain ⟨init, hi⟩ := normalizeMount_data mount
  have hlen : (normalizeMount mount).length = init.length + 1 := by
    simp [String.length, hi]
  have hpre : hasPrefix (normalizeMount mount ++ rest) (normalizeMount mount) = true := by
    unfold hasPrefix
    have ht : (normalizeMount mount ++ rest).data.take (normalizeMount mount).length
        = (normalizeMount mount).data := by
      rw [String.data_append]
      exact List.take_left' rfl
    rw [ht]
    exact beq_self_eq_true _
  have hsub : substrFrom (normalizeMount mount ++ rest) ((normalizeMount mount).length - 1)
      = "/" ++ rest := by
    rw [hlen]
    simp only [substrFrom, String.data_append, hi, Nat.add_sub_cancel, List.append_assoc,
      List.drop_left]
    rfl
  unfold resolve
  simp only [hgate, hb, hp, hpre, hsub]
  simp

theorem onGet_retry (rt : Runtime) (vfs : Vfs) (mount path : String) (req : Request)
    (f : Nat) (options : Options) (res : Response) (calls : List VfsCall) (reply : Reply)
    (e : JsErr) (hf : reply.failure = some e) :
    onGet rt vfs mount path req (f + 2) true options res calls reply
      = match (vfs { op := VfsOp.readdir, path := path,
                     options := { options with encodingNull := true } }).failure with
        | none =>
          { res := respondGet rt mount path req { options with encodingNull := true }
              ((res.setHeader "Date" rt.now).setHeader "Date" rt.now)
              (vfs { op := VfsOp.readdir, path := path,
                     options := { options with encodingNull := true } }).meta,
            calls := calls ++ [{ op := VfsOp.readdir, path := path,
                                 options := { options with encodingNull := true } }],
            status := Completion.responded }
        | some e2 =>
          { res := abort ((res.setHeader "Date" rt.now).setHeader "Date" rt.now) e2 none,
            calls := calls ++ [{ op := VfsOp.readdir, path := path,
                                 options := { options with encodingNull := true } }],
            status := Completion.responded } := by
  cases h2 : (vfs { op := VfsOp.readdir, path := path,
                    options := { options with encodingNull := true } }).failure with
  | none => simp [onGet, hf, h2]
  | some e2 => simp [onGet, hf, h2]

theorem indexOfChar_append (c : Char) (u r : List Char) (h : c ∉ u) :
    indexOfChar c (u ++ c :: r) = (u.length : Int) := by
  induction u with
  | nil => simp [indexOfChar]
  | cons x xs ih =>
    have hx : x ≠ c := fun e => h (by simp [e])
    have hxs : c ∉ xs := fun e => h (by simp [e])
    have hi := ih hxs
    have hnn : ¬ ((xs.length : Int) < 0) := by omega
    rw [List.cons_append, indexOfChar, if_neg hx]
    simp only [hi, hnn, if_false, List.length_cons]
    push_cast
    rfl

theorem splitChars_none (c : Char) (b : List Char) (h : c ∉ b) : splitChars c b = [b] := by
  induction b with
  | nil => rfl
  | cons x xs ih =>
    have hx : x ≠ c := fun e => h (by simp [e])
    have hxs : c ∉ xs := fun e => h (by simp [e])
    simp [splitChars, hx, ih hxs]

theorem splitChars_two (c : Char) (a b : List Char) (ha : c ∉ a) (hb : c ∉ b) :
    splitChars c (a ++ c :: b) = [a, b] := by
  induction a with
  | nil => simp [splitChars, splitChars_none c b hb]
  | cons x xs ih =>
    have hx : x ≠ c := fun e => ha (by simp [e])
    have hxs : c ∉ xs := fun e => ha (by simp [e])
    simp [splitChars, hx, ih hxs]

theorem digit_not_space (c : Char) (h : isDecDigit c = true) : isJsWhiteSpace c = false := by
  simp only [isDecDigit, Bool.and_eq_true, decide_eq_true_eq] at h
  simp only [isJsWhiteSpace, List.contains, List.elem, Bool.or_eq_false_iff,
    Bool.and_eq_false_iff, decide_eq_false_iff_not]
  constructor
  · have e : ∀ k : Nat, k < 48 ∨ 57 < k → (c.toNat == k) = false := by
      intro k hk
      simp only [beq_eq_false_iff_ne, ne_eq]
      omega
    simp [e]
  · left; omega

theorem digit_not_sign (c : Char) (h : isDecDigit c = true) : c ≠ '-' ∧ c ≠ '+' := by
  simp only [isDecDigit, Bool.and_eq_true, decide_eq_true_eq] at h
  constructor
  · intro e; subst e; exact absurd h.1 (by decide)
  · intro e; subst e; exact absurd h.1 (by decide)

theorem toDouble_exact (n : Nat) (h : n ≤ 2 ^ 53) : toDouble n = JsNum.int n := by
  rcases Nat.lt_or_eq_of_le h with hlt | heq
  · unfold toDouble
    rw [if_pos hlt]
  · subst heq; decide

theorem digitsValue_append (ds : List Char) (d : Char) :
    digitsValue (ds ++ [d]) = 10 * digitsValue ds + (d.toNat - 48) := by
  simp [digitsValue, List.foldl_append]

theorem digitsValue_eq_ofDigits (ds : List Char) :
    digitsValue ds = Nat.ofDigits 10 ((ds.map (fun c => c.toNat - 48)).reverse) := by
  induction ds using List.reverseRecOn with
  | nil => simp [digitsValue]
  | append_singleton l d ih =>
    rw [digitsValue_append, ih]
    simp [Nat.ofDigits_cons, Nat.add_comm]

theorem parseInt10_digits (ds : List Char) (hne : ds ≠ [])
    (hd : ∀ c ∈ ds, isDecDigit c = true) (hv : digitsValue ds ≤ 2 ^ 53) :
    parseInt10 ds = JsNum.int (digitsValue ds) := by
  cases ds with
  | nil => exact absurd rfl hne
  | cons d t =>
    have hdig := hd d (by simp)
    have hsp := digit_not_space d hdig
    obtain ⟨hm, hp⟩ := digit_not_sign d hdig
    have htw : (d :: t).takeWhile isDecDigit = d :: t :=
      List.takeWhile_eq_self_iff.mpr hd
    unfold parseInt10
    simp only [List.dropWhile_cons, hsp, List.head?_cons]
    simp [hm, hp, htw, toDouble_exact _ hv]

theorem parseRange_form (unit start end_ : String) (ifRange : Option String)
    (hu : '=' ∉ unit.data) (hs : ∀ c ∈ start.data, isDecDigit c = true)
    (he : ∀ c ∈ end_.data, isDecDigit c = true)
    (hsv : digitsValue start.data ≤ 2 ^ 53) (hev : digitsValue end_.data ≤ 2 ^ 53) :
    parseRange (unit ++ "=" ++ start ++ "-" ++ end_) ifRange
      = Except.ok
          { start := if start.data = [] then none
              else some (JsNum.int (digitsValue start.data)),
            end_ := if end_.data = [] then none
              else some (JsNum.int (digitsValue end_.data)),
            etag := ifRange } := by
  have hdata : (unit ++ "=" ++ start ++ "-" ++ end_).data
      = unit.data ++ '=' :: (start.data ++ '-' :: end_.data) := by
    simp only [String.data_append, List.append_assoc]
    rfl
  have hsm : '-' ∉ start.data := fun h => (digit_not_sign _ (hs _ h)).1 rfl
  have hem : '-' ∉ end_.data := fun h => (digit_not_sign _ (he _ h)).1 rfl
  unfold parseRange
  simp only [hdata, indexOfChar_append _ _ _ hu]
  have hdrop : (unit.data ++ '=' :: (start.data ++ '-' :: end_.data)).drop
      ((unit.data.length : Int) + 1).toNat = start.data ++ '-' :: end_.data := by
    have : ((unit.data.length : Int) + 1).toNat = unit.data.length + 1 := by omega
    rw [this]
    have h2 : unit.data ++ '=' :: (start.data ++ '-' :: end_.data)
        = (unit.data ++ ['=']) ++ (start.data ++ '-' :: end_.data) := by simp
    rw [h2]
    exact List.drop_left' (by simp)
  rw [hdrop, splitChars_two _ _ _ hsm hem]
  have hl : ∀ s : String, s.data ≠ [] → ¬ s.length = 0 :=
    fun s h hz => h (List.eq_nil_of_length_eq_zero hz)
  by_cases h0 : start.data = [] <;> by_cases h1 : end_.data = []
  · simp [h0, h1]
  · simp [h0, h1, parseInt10_digits _ h1 he hev, hl _ h1]
  · simp [h0, h1, parseInt10_digits _ h0 hs hsv, hl _ h0]
  · simp [h0, h1, parseInt10_digits _ h0 hs hsv, parseInt10_digits _ h1 he hev, hl _ h0,
      hl _ h1]

theorem splitChars_ne_nil (c : Char) (l : List Char) : splitChars c l ≠ [] := by
  cases l with
  | nil => simp [splitChars]
  | cons x xs =>
    unfold splitChars
    by_cases h : x = c
    · simp [h]
    · simp only [h, if_false]
      cases splitChars c xs <;> simp

theorem splitChars_of_mem (c : Char) (l : List Char) (h : c ∈ l) :
    ∃ p0 p1 t, splitChars c l = p0 :: p1 :: t := by
  induction l with
  | nil => simp at h
  | cons x xs ih =>
    by_cases hx : x = c
    · cases hsplit : splitChars c xs with
      | nil => exact absurd hsplit (splitChars_ne_nil c xs)
      | cons p1 t => exact ⟨[], p1, t, by simp [splitChars, hx, hsplit]⟩
    · have hmem : c ∈ xs := by
        rcases List.mem_cons.mp h with h1 | h1
        · exact absurd h1.symm hx
        · exact h1
      obtain ⟨p0, p1, t, hp⟩ := ih hmem
      exact ⟨x :: p0, p1, t, by simp [splitChars, hx, hp]⟩

theorem getOptions_ok_of_dash (req : Request)
    (hrange : ∀ h, req.range = some h →
      '-' ∈ h.data.drop (indexOfChar '=' h.data + 1).toNat) :
    ∃ options, getOptions req = Except.ok options := by
  unfold getOptions
  cases hr : req.range with
  | none => exact ⟨_, rfl⟩
  | some h =>
    obtain ⟨p0, p1, t, hp⟩ := splitChars_of_mem _ _ (hrange h hr)
    simp only [parseRange, hp]
    exact ⟨_, rfl⟩

/-! ## The error mapper -/

/-- C1, as stated, fails: `abort(err, 0)` is given the override `0`, which
`if (code)` treats as no override, so a not-found error gets 404 and not
the override. -/
theorem abort_override_zero_not_used :
    (abort {} (JsErr.obj (some "ENOENT") none "Error: no such file") (some 0)).statusCode = 404
    ∧ (abort {} (JsErr.obj (some "ENOENT") none "Error: no such file") (some 0)).statusCode
        ≠ 0 := by
  decide

/-- C1, amended: `abort(err, code)` sets the status to the override when one
is given and is not `0`; otherwise to 400, 403, 404, 503 for the codes
`EBADREQUEST`, `EACCESS`, `ENOENT`, `ENOTREADY`, and to 500 for every other
or absent `err.code`. -/
theorem abort_status_mapping (res : Response) (err : JsErr) (code : Option Nat) :
    (abort res err code).statusCode =
      if code ≠ none ∧ code ≠ some 0 then code.getD 0
      else if err.code = some "EBADREQUEST" then 400
      else if err.code = some "EACCESS" then 403
      else if err.code = some "ENOENT" then 404
      else if err.code = some "ENOTREADY" then 503
      else 500 := by
  have hs : (abort res err code).statusCode = abortStatus err code := rfl
  rw [hs]
  unfold abortStatus
  cases code with
  | none => simp [numTruthy]
  | some c =>
    by_cases hc : c = 0
    · subst hc; simp [numTruthy]
    · simp [numTruthy, hc]

/-! ## The listing encoder -/

/-- C2: for every sequence of entries followed by end-of-input, the chunks
`jsonEncoder` emits concatenate to `[]` for the empty sequence, and
otherwise to `[\n  `, the JSON encodings of the entries (each as augmented
by the encoder) in input order separated by `,\n  `, then `\n]`: one array
element per entry; the output stream is then ended. -/
theorem jsonEncoder_output (stringify : Entry → String) (path : Option String)
    (es : List Entry) :
    (jsonEncoder stringify path es).text =
      (if es.isEmpty then "[]"
       else "[\n  "
        ++ String.intercalate ",\n  " (es.map (fun e => stringify (augment path e)))
        ++ "\n]")
    ∧ (es.map (fun e => stringify (augment path e))).length = es.length
    ∧ (jsonEncoder stringify path es).ended = true := by
  cases es with
  | nil => exact ⟨rfl, rfl, rfl⟩
  | cons e t =>
    have h1 : (Encoder.onData stringify path {} e).first = false := by
      simp [Encoder.onData]
    obtain ⟨a, _, c⟩ := foldl_onData_rest stringify path t _ h1
    refine ⟨?_, by simp, ?_⟩
    · simp only [jsonEncoder, List.foldl_cons, Encoder.text, Encoder.onEnd, a,
        Bool.false_eq_true, if_false, c, List.isEmpty_cons, List.map_cons,
        String.intercalate, intercalate_go_eq, join_append, join_cons]
      simp [Encoder.onData, String.join, String.append_assoc, Function.comp_def]
    · simp [jsonEncoder, Encoder.onEnd, a]

/-- C3, as stated, fails on both sides: a symbolic link whose own `mime` is
no container type but whose `linkStat.mime` is gets an `href` ending with
`/`; and so does a plain file whose name ends with `/`. -/
theorem href_slash_not_by_own_mime :
    (isContainerMime "inode/symlink" = false
      ∧ (augment (some "http://h/d/")
          { name := "lnk", mime := "inode/symlink", size := 4,
            linkStat := some { mime := "inode/directory", size := 0 } }).href
        = some "http://h/d/lnk/")
    ∧ (isContainerMime "text/plain" = false
      ∧ (augment (some "http://h/d/") { name := "a/", mime := "text/plain", size := 1 }).href
        = some "http://h/d/a/") := by
  decide

/-- C3, amended: under a non-empty base path the encoder emits the entry
with `href` set to base + name + `/` when the effective mime (that of
`linkStat` when the entry has one, else its own) ends with `directory` or
`folder`, and to base + name otherwise; so the `href` ends with `/` exactly
when the effective mime is a container type or base + name already ends
with `/`. -/
theorem augment_href_slash (stringify : Entry → String) (p : String) (e : Entry)
    (st : Encoder) (hp : p ≠ "") :
    (augment (some p) e).href
      = some (if isContainerMime e.effectiveMime then p ++ e.name ++ "/" else p ++ e.name)
    ∧ (augment (some p) e).hrefEndsWithSlash
      = (isContainerMime e.effectiveMime || lastCharIs (p ++ e.name) '/')
    ∧ (Encoder.onData stringify (some p) st e).emitted
      = st.emitted
        ++ [(if st.first then "[\n  " else ",\n  ") ++ stringify (augment (some p) e)] := by
  have ht : strTruthy (some p) = true := by simp [strTruthy, hp]
  refine ⟨?_, ?_, ?_⟩
  · unfold augment
    rw [if_pos ht]
    by_cases hm : isContainerMime e.effectiveMime = true <;> simp [hm]
  · unfold augment
    rw [if_pos ht]
    by_cases hm : isContainerMime e.effectiveMime = true
    · simp [hm, Entry.hrefEndsWithSlash, lastCharIs, String.data_append]
    · simp [hm, Entry.hrefEndsWithSlash]
  · unfold Encoder.onData
    by_cases hf : st.first = true <;> simp [hf]

/-- The amended C3 at a directory entry under the base `http://h/d/`. -/
theorem augment_href_slash_witness :
    (augment (some "http://h/d/") { name := "sub", mime := "inode/directory", size := 0 }).href
      = some (if isContainerMime "inode/directory" then "http://h/d/" ++ "sub" ++ "/"
          else "http://h/d/" ++ "sub") :=
  (augment_href_slash (fun e => e.name) "http://h/d/"
    { name := "sub", mime := "inode/directory", size := 0 } {} (by decide)).1

/-! ## The GET flow: ranges and conditional requests -/

/-- C4, as stated, fails: a successful GET whose result carries
`partialContent` and a stream but no `size` gets status 206 and no
`Content-Range` header, because the header is set inside the test for
`size`. -/
theorem partial_without_size_no_content_range :
    (handle sampleRuntime
        (constVfs { partialContent := some { start := 0, end_ := 9, size := 100 },
                    stream := some { label := "file" } })
        "/" {} { method := "GET", pathname := "/a.txt", bucketId := some "b" } 2).res.statusCode
      = 206
    ∧ (handle sampleRuntime
        (constVfs { partialContent := some { start := 0, end_ := 9, size := 100 },
                    stream := some { label := "file" } })
        "/" {} { method := "GET", pathname := "/a.txt", bucketId := some "b" } 2).res.header
          "Content-Range"
      = none := by
  decide

/-- C4, amended: when the callback of a GET receives a successful result,
a truthy `rangeNotSatisfiable` gives status 416 and the body rendered from
the carried error; otherwise a carried `partialContent` gives status 206,
and `Content-Range` is set to `bytes start-end/size` from its three values
exactly when the result also carries `size` and either carries a stream or
the request is a HEAD. -/
theorem onGet_range_results (rt : Runtime) (vfs : Vfs) (mount path : String) (req : Request)
    (fuel : Nat) (tryAgain : Bool) (options : Options) (res : Response)
    (calls : List VfsCall) (reply : Reply)
    (hok : reply.failure = none) (hres : res.header "Content-Range" = none) :
    (∀ e, reply.meta.rangeNotSatisfiable = some e → e.truthy = true →
      (onGet rt vfs mount path req (fuel + 1) tryAgain options res calls reply).res.statusCode
        = 416
      ∧ (onGet rt vfs mount path req (fuel + 1) tryAgain options res calls reply).res.body
        = Body.ended (e.stackOrSelf ++ "\n"))
    ∧ (∀ pc, reply.meta.rangeNotSatisfiable.filter JsErr.truthy = none →
      reply.meta.partialContent = some pc →
      (onGet rt vfs mount path req (fuel + 1) tryAgain options res calls reply).res.statusCode
        = 206
      ∧ (onGet rt vfs mount path req (fuel + 1) tryAgain options res calls reply).res.header
          "Content-Range"
        = if (reply.meta.stream.isSome || options.head) && reply.meta.size.isSome then
            some ("bytes " ++ toString pc.start ++ "-" ++ toString pc.end_ ++ "/"
              ++ toString pc.size)
          else none) := by
  rw [onGet_success _ _ _ _ _ _ _ _ _ _ _ hok]
  have hres' : (res.setHeader "Date" rt.now).header "Content-Range" = none := by
    rw [header_setHeader_other _ _ _ _ (by decide)]; exact hres
  generalize res.setHeader "Date" rt.now = r at hres'
  obtain ⟨err, m⟩ := reply
  obtain ⟨etag, mime, size, stream, nm, pcq, rns⟩ := m
  constructor
  · intro e he ht
    simp only at he
    subst he
    simp [respondGet, Option.filter, ht, abort, abortStatus, numTruthy, Response.finish,
      Response.setHeader]
  · intro pc hr hp
    simp only at hr hp
    subst hp
    simp only [respondGet, hr]
    have hcr : ∀ (x : Response) (v : String), (x.setHeader "Content-Range" v).header
        "Content-Range" = some v := fun x v => header_setHeader_same x _ v
    have hct : ∀ (x : Response) (v : String), (x.setHeader "Content-Type" v).header
        "Content-Range" = x.header "Content-Range" :=
      fun x v => header_setHeader_other x _ _ v (by decide)
    have hcl : ∀ (x : Response) (v : String), (x.setHeader "Content-Length" v).header
        "Content-Range" = x.header "Content-Range" :=
      fun x v => header_setHeader_other x _ _ v (by decide)
    have het : ∀ (x : Response) (v : String), (x.setHeader "ETag" v).header
        "Content-Range" = x.header "Content-Range" :=
      fun x v => header_setHeader_other x _ _ v (by decide)
    cases etag <;> cases mime <;> cases size <;> cases stream <;> cases nm <;>
      cases hh : options.head <;> cases hn : options.encodingNull <;>
      simp [Response.finish, hcr, hct, hcl, het, header_withStatus, header_withBody,
        header_of_headers, statusCode_setHeader, hres']

/-- The C4 theorem at a ranged read of 10 bytes out of 100. -/
theorem onGet_range_results_witness :
    (onGet sampleRuntime (constVfs {}) "/" "/a.txt" { method := "GET", pathname := "/a.txt" } 1
        false { bucketId := "b" } {} []
        { meta := { size := some 10, stream := some { label := "file" },
                    partialContent := some { start := 0, end_ := 9, size := 100 } } }).res.header
      "Content-Range"
      = some "bytes 0-9/100" :=
  ((onGet_range_results sampleRuntime (constVfs {}) "/" "/a.txt"
      { method := "GET", pathname := "/a.txt" } 0 false { bucketId := "b" } {} []
      { meta := { size := some 10, stream := some { label := "file" },
                  partialContent := some { start := 0, end_ := 9, size := 100 } } }
      (by decide) (by decide)).2 { start := 0, end_ := 9, size := 100 } (by decide) rfl).2

/-- C5, as stated, fails: a result with `notModified` set gets status 206
when it also carries `partialContent`, and has its stream piped when it
also carries one. -/
theorem not_modified_overridden :
    (handle sampleRuntime
        (constVfs { notModified := true,
                    partialContent := some { start := 0, end_ := 9, size := 100 } })
        "/" {} { method := "GET", pathname := "/a.txt", bucketId := some "b",
                 ifNoneMatch := some "\"v1\"" } 2).res.statusCode
      = 206
    ∧ (handle sampleRuntime
        (constVfs { notModified := true, stream := some { label := "file" } })
        "/" {} { method := "GET", pathname := "/a.txt", bucketId := some "b",
                 ifNoneMatch := some "\"v1\"" } 2).res.body
      = Body.pipedRaw { label := "file" } := by
  decide

/-- C5, amended: for a GET (or HEAD) carrying `If-None-Match`, every backend
call gets the header value as `options.etag`, and once the path is resolved
and the options are built there is such a call; and when the callback
receives a successful result with `notModified` set that carries no truthy
`rangeNotSatisfiable`, no `partialContent` and no stream, the status is 304
and the response is ended with an empty body, nothing being piped. -/
theorem get_if_none_match (rt : Runtime) (vfs : Vfs) (mount : String) (cfg : MountOptions)
    (req : Request) (fuel : Nat) (v : String)
    (hm : req.method = "GET" ∨ req.method = "HEAD") (hh : req.ifNoneMatch = some v) :
    (∀ c ∈ (handle rt vfs mount cfg req fuel).calls, c.options.etag = some v)
    ∧ (∀ p options, resolve rt mount cfg req = some p → getOptions req = Except.ok options →
        ∃ c, (handle rt vfs mount cfg req fuel).calls.head? = some c
          ∧ c.options.etag = some v)
    ∧ (∀ (path : String) (f : Nat) (tryAgain : Bool) (options : Options) (res : Response)
        (calls : List VfsCall) (reply : Reply),
        reply.failure = none → reply.meta.notModified = true →
        reply.meta.rangeNotSatisfiable.filter JsErr.truthy = none →
        reply.meta.partialContent = none → reply.meta.stream = none →
        (onGet rt vfs (normalizeMount mount) path req (f + 1) tryAgain options res calls
            reply).res.statusCode = 304
        ∧ (onGet rt vfs (normalizeMount mount) path req (f + 1) tryAgain options res calls
            reply).res.body = Body.ended "") := by
  have hmeth : (req.method == "HEAD" || req.method == "GET") = true := by
    rcases hm with h | h <;> simp [h]
  refine ⟨?_, ?_, ?_⟩
  · unfold handle
    cases hr : resolve rt mount cfg req with
    | none => simp
    | some path =>
      simp only [hmeth, if_true]
      unfold handleGet
      cases hg : getOptions req with
      | error e => simp
      | ok options =>
        have he := getOptions_etag req options v hh hg
        simp only
        split
        · split
          · refine onGet_calls_etag _ _ _ _ _ _ _ _ _ _ _ _ he ?_
            intro c hc
            simp only [List.mem_singleton] at hc
            subst hc; exact he
          · refine onGet_calls_etag _ _ _ _ _ _ _ _ _ _ _ _ he ?_
            intro c hc
            simp only [List.mem_singleton] at hc
            subst hc; exact he
        · refine onGet_calls_etag _ _ _ _ _ _ _ _ _ _ _ _ he ?_
          intro c hc
          simp only [List.mem_singleton] at hc
          subst hc; exact he
  · intro p options hr hg
    have he := getOptions_etag req options v hh hg
    unfold handle
    simp only [hr, hmeth, if_true]
    unfold handleGet
    simp only [hg]
    split
    · split
      · exact ⟨_, onGet_calls_head _ _ _ _ _ _ _ _ _ _ _ _ rfl, he⟩
      · exact ⟨_, onGet_calls_head _ _ _ _ _ _ _ _ _ _ _ _ rfl, he⟩
    · exact ⟨_, onGet_calls_head _ _ _ _ _ _ _ _ _ _ _ _ rfl, he⟩
  · intro path f tryAgain options res calls reply hok hn hr hp hs
    rw [onGet_success _ _ _ _ _ _ _ _ _ _ _ hok]
    obtain ⟨err, m⟩ := reply
    obtain ⟨etag, mime, size, stream, nm, pcq, rns⟩ := m
    simp only at hn hr hp hs
    subst hn hp hs
    simp only [respondGet, hr]
    cases etag <;> cases mime <;> cases size <;>
      cases hh : options.head <;> cases hn : options.encodingNull <;>
      simp [Response.finish, statusCode_setHeader]

/-- The C5 theorem at a conditional GET answered with `notModified`. -/
theorem get_if_none_match_witness :
    (∀ c ∈ (handle sampleRuntime (constVfs { notModified := true }) "/" {}
        { method := "GET", pathname := "/a.txt", bucketId := some "b",
          ifNoneMatch := some "\"v1\"" } 2).calls, c.options.etag = some "\"v1\"")
    ∧ (onGet sampleRuntime (constVfs { notModified := true }) (normalizeMount "/") "/a.txt"
        { method := "GET", pathname := "/a.txt", bucketId := some "b",
          ifNoneMatch := some "\"v1\"" } 1 false { bucketId := "b" } {} []
        { meta := { notModified := true } }).res.statusCode = 304 :=
  ⟨(get_if_none_match sampleRuntime (constVfs { notModified := true }) "/" {}
      { method := "GET", pathname := "/a.txt", bucketId := some "b",
        ifNoneMatch := some "\"v1\"" } 2 "\"v1\"" (Or.inl rfl) rfl).1,
   ((get_if_none_match sampleRuntime (constVfs { notModified := true }) "/" {}
      { method := "GET", pathname := "/a.txt", bucketId := some "b",
        ifNoneMatch := some "\"v1\"" } 2 "\"v1\"" (Or.inl rfl) rfl).2.2 "/a.txt" 0 false
      { bucketId := "b" } {} [] { meta := { notModified := true } } (by decide) rfl
      (by decide) rfl rfl).1⟩

/-! ## The POST, PUT and DELETE flows -/

/-- C6 at the failing input: a POST whose body is the empty object raises
a `ReferenceError` for the unbound `data` of line 238; `abort` is not
entered, so the response keeps status 200 and is never ended, and no
backend operation is called. -/
theorem post_without_command_throws :
    handle sampleRuntime (constVfs {}) "/" {}
        { method := "POST", pathname := "/a/b", bucketId := some "b",
          content := ReqContent.object {} } 2
      = { res := { statusCode := 200, headers := [], body := Body.pending }, calls := [],
          status := Completion.threw (JsException.referenceError "data") } := by
  decide

/-- C7: a PUT whose resolved path does not end with `/` makes exactly one
backend call, on that path: `writefile` when the declared content length is
greater than 0, `mkfile` when it is zero or none is declared; a PUT whose
resolved path ends with `/` makes exactly one call, `mkdir`, on that
path. -/
theorem put_backend_call (rt : Runtime) (vfs : Vfs) (mount : String) (cfg : MountOptions)
    (req : Request) (fuel : Nat) (p : String)
    (hm : req.method = "PUT") (hr : resolve rt mount cfg req = some p) :
    (lastCharIs p '/' = false → ∀ n, req.contentLength = some n → 0 < n →
      (handle rt vfs mount cfg req fuel).calls.map (fun c => (c.op, c.path))
        = [(VfsOp.writefile, p)])
    ∧ (lastCharIs p '/' = false → (req.contentLength = none ∨ req.contentLength = some 0) →
      (handle rt vfs mount cfg req fuel).calls.map (fun c => (c.op, c.path))
        = [(VfsOp.mkfile, p)])
    ∧ (lastCharIs p '/' = true →
      (handle rt vfs mount cfg req fuel).calls.map (fun c => (c.op, c.path))
        = [(VfsOp.mkdir, p)]) := by
  have hh : handle rt vfs mount cfg req fuel = handlePut vfs p req := by
    simp [handle, hr, hm]
  rw [hh]
  refine ⟨?_, ?_, ?_⟩
  · intro hs n hn hpos
    simp [handlePut, hs, hn, hpos]
  · intro hs hz
    rcases hz with h | h <;> simp [handlePut, hs, h]
  · intro hs
    simp [handlePut, hs]

/-- The C7 theorem at a PUT of 12 bytes to `/a/b.txt` under the mount `/`. -/
theorem put_backend_call_witness :
    (handle sampleRuntime (constVfs {}) "/" {}
        { method := "PUT", pathname := "/a/b.txt", bucketId := some "b",
          contentLength := some 12 } 0).calls.map (fun c => (c.op, c.path))
      = [(VfsOp.writefile, "/a/b.txt")] :=
  (put_backend_call sampleRuntime (constVfs {}) "/" {}
    { method := "PUT", pathname := "/a/b.txt", bucketId := some "b",
      contentLength := some 12 } 0 "/a/b.txt" rfl (by decide)).1 (by decide) 12 rfl
    (by decide)

/-- C8, as stated, fails: under a read-only mount, or without a bucket id,
a DELETE whose pathname lies under the mount prefix is passed on through
`next()` and neither `rmdir` nor `rmfile` is called. -/
theorem delete_passed_on_by_gates :
    (handle sampleRuntime (constVfs {}) "/" { readOnly := true }
        { method := "DELETE", pathname := "/a/b/", bucketId := some "b" } 2
      = { res := {}, calls := [], status := Completion.passed })
    ∧ (handle sampleRuntime (constVfs {}) "/" {}
        { method := "DELETE", pathname := "/a/b/" } 2
      = { res := {}, calls := [], status := Completion.passed }) := by
  decide

/-- C8, amended: for a DELETE on a mount that is not read-only, with a
bucket id, whose decoded pathname is the mount prefix (with `/` appended
when it lacks one) followed by `rest`, the resolved path is `/` followed
by `rest`, and exactly one backend call is made, on that path: `rmdir`
when it ends with `/`, `rmfile` otherwise. -/
theorem delete_backend_call (rt : Runtime) (vfs : Vfs) (mount : String) (cfg : MountOptions)
    (req : Request) (fuel : Nat) (rest : String)
    (hm : req.method = "DELETE") (hro : cfg.readOnly = false)
    (hb : strTruthy req.bucketId = true)
    (hp : rt.unescape req.pathname = normalizeMount mount ++ rest) :
    resolve rt mount cfg req = some ("/" ++ rest)
    ∧ (handle rt vfs mount cfg req fuel).calls.map (fun c => (c.op, c.path))
      = [(if lastCharIs ("/" ++ rest) '/' then VfsOp.rmdir else VfsOp.rmfile, "/" ++ rest)] := by
  have hr := resolve_under_mount rt mount cfg req rest (by simp [hro]) hb hp
  refine ⟨hr, ?_⟩
  have hh : handle rt vfs mount cfg req fuel = handleDelete vfs ("/" ++ rest) req := by
    simp [handle, hr, hm]
  rw [hh]
  simp [handleDelete]

/-- The C8 theorem at `DELETE /a/b/` under the mount `/`: the path stays
`/a/b/` and `rmdir` is called on it. -/
theorem delete_backend_call_witness :
    resolve sampleRuntime "/" {}
        { method := "DELETE", pathname := "/a/b/", bucketId := some "b" } = some "/a/b/"
    ∧ (handle sampleRuntime (constVfs {}) "/" {}
        { method := "DELETE", pathname := "/a/b/", bucketId := some "b" } 0).calls.map
          (fun c => (c.op, c.path))
      = [(VfsOp.rmdir, "/a/b/")] :=
  delete_backend_call sampleRuntime (constVfs {}) "/" {}
    { method := "DELETE", pathname := "/a/b/", bucketId := some "b" } 0 "a/b/" rfl rfl
    (by decide) (by decide)

/-! ## The auto-index fallback -/

/-- C9, as stated, fails: a GET of `/docs/` under the auto-index
`index.html` carrying `Range: bytes=5` raises the `TypeError` of line 99
while the options are built, before line 110, so `readfile` is not
called. -/
theorem autoindex_not_reached_on_bad_range :
    handle sampleRuntime indexMissingVfs "/" { autoIndex := some "index.html" }
        { method := "GET", pathname := "/docs/", bucketId := some "b",
          range := some "bytes=5" } 2
      = { res := {}, calls := [],
          status := Completion.threw (JsException.typeError "parts[1] is undefined") } := by
  decide

/-- C9, amended: for a GET (or HEAD) of a resolved path ending with `/`
under a configured auto-index name, whose `Range` header, when present,
holds a `-` after its first `=`, whatever the backend replies and for every
fuel of at least 2, the handler finishes with at most two backend calls: the
options are built, the first call is `readfile` on path + autoIndex; if it
succeeds it is the only call and the response is built from its result; if
it fails, `readdir` on the path is the second and last call, whose result
builds the response and whose failure goes to `abort`. -/
theorem get_autoindex_flow (rt : Runtime) (vfs : Vfs) (mount : String) (cfg : MountOptions)
    (req : Request) (fuel : Nat) (p idx : String)
    (hm : req.method = "GET" ∨ req.method = "HEAD")
    (hr : resolve rt mount cfg req = some p) (hs : lastCharIs p '/' = true)
    (hi : cfg.autoIndex = some idx) (hidx : idx ≠ "") (hfuel : 2 ≤ fuel)
    (hrange : ∀ h, req.range = some h →
      '-' ∈ h.data.drop (indexOfChar '=' h.data + 1).toNat) :
    (handle rt vfs mount cfg req fuel).calls.length ≤ 2
    ∧ (handle rt vfs mount cfg req fuel).status ≠ Completion.outOfFuel
    ∧ ∃ options, getOptions req = Except.ok options
      ∧ ((vfs { op := VfsOp.readfile, path := p ++ idx, options := options }).failure = none →
        handle rt vfs mount cfg req fuel
          = { res := respondGet rt (normalizeMount mount) p req options
                (Response.setHeader {} "Date" rt.now)
                (vfs { op := VfsOp.readfile, path := p ++ idx, options := options }).meta,
              calls := [{ op := VfsOp.readfile, path := p ++ idx, options := options }],
              status := Completion.responded })
      ∧ ((vfs { op := VfsOp.readfile, path := p ++ idx, options := options }).failure ≠ none →
        (handle rt vfs mount cfg req fuel).calls
          = [{ op := VfsOp.readfile, path := p ++ idx, options := options },
             { op := VfsOp.readdir, path := p,
               options := { options with encodingNull := true } }]
        ∧ (handle rt vfs mount cfg req fuel).status = Completion.responded
        ∧ ((vfs { op := VfsOp.readdir, path := p,
                  options := { options with encodingNull := true } }).failure = none →
          (handle rt vfs mount cfg req fuel).res
            = respondGet rt (normalizeMount mount) p req { options with encodingNull := true }
                ((Response.setHeader {} "Date" rt.now).setHeader "Date" rt.now)
                (vfs { op := VfsOp.readdir, path := p,
                       options := { options with encodingNull := true } }).meta)
        ∧ (∀ e2, (vfs { op := VfsOp.readdir, path := p,
                        options := { options with encodingNull := true } }).failure = some e2 →
          (handle rt vfs mount cfg req fuel).res
            = abort ((Response.setHeader {} "Date" rt.now).setHeader "Date" rt.now) e2 none)) := by
  obtain ⟨f, rfl⟩ : ∃ f, fuel = f + 2 := ⟨fuel - 2, by omega⟩
  have hmeth : (req.method == "HEAD" || req.method == "GET") = true := by
    rcases hm with h | h <;> simp [h]
  have hauto : strTruthy (some idx) = true := by simp [strTruthy, hidx]
  have hh : handle rt vfs mount cfg req (f + 2)
      = handleGet rt vfs (normalizeMount mount) p cfg req (f + 2) := by
    simp only [handle, hr, hmeth, if_true]
  obtain ⟨options, hg⟩ := getOptions_ok_of_dash req hrange
  rw [hh]
  unfold handleGet
  simp only [hg, hs, hi, hauto, if_true, Option.getD_some]
  cases h1 : (vfs { op := VfsOp.readfile, path := p ++ idx, options := options }).failure with
  | none =>
    rw [onGet_success _ _ _ _ _ _ _ _ _ _ _ h1]
    refine ⟨by simp, by simp, options, rfl, fun _ => rfl, fun hne => ?_⟩
    exact absurd h1 hne
  | some e =>
    rw [onGet_retry _ _ _ _ _ _ _ _ _ _ e h1]
    cases h2 : (vfs { op := VfsOp.readdir, path := p,
                      options := { options with encodingNull := true } }).failure with
    | none =>
      refine ⟨by simp, by simp, options, rfl, fun h => by simp [h1] at h,
        fun _ => ⟨rfl, rfl, fun _ => rfl, ?_⟩⟩
      intro e2 h
      simp [h2] at h
    | some e2 =>
      refine ⟨by simp, by simp, options, rfl, fun h => by simp [h1] at h,
        fun _ => ⟨rfl, rfl, ?_, ?_⟩⟩
      · intro h
        simp [h2] at h
      · intro e3 h
        rw [h2] at h
        cases h
        rfl

/-- The C9 theorem at `GET /docs/` with `Range: bytes=0-99` and the
auto-index `index.html` on a backend without that file: `readfile` on
`/docs/index.html`, then `readdir` on `/docs/`, and nothing more. -/
theorem get_autoindex_flow_witness :
    (handle sampleRuntime indexMissingVfs "/" { autoIndex := some "index.html" }
        { method := "GET", pathname := "/docs/", bucketId := some "b",
          range := some "bytes=0-99" } 2).calls.length ≤ 2
    ∧ (handle sampleRuntime indexMissingVfs "/" { autoIndex := some "index.html" }
        { method := "GET", pathname := "/docs/", bucketId := some "b",
          range := some "bytes=0-99" } 2).status
      ≠ Completion.outOfFuel
    ∧ (handle sampleRuntime indexMissingVfs "/" { autoIndex := some "index.html" }
        { method := "GET", pathname := "/docs/", bucketId := some "b",
          range := some "bytes=0-99" } 2).calls.map (fun c => (c.op, c.path))
      = [(VfsOp.readfile, "/docs/index.html"), (VfsOp.readdir, "/docs/")] :=
  ⟨(get_autoindex_flow sampleRuntime indexMissingVfs "/" { autoIndex := some "index.html" }
      { method := "GET", pathname := "/docs/", bucketId := some "b",
        range := some "bytes=0-99" } 2 "/docs/" "index.html"
      (Or.inl rfl) (by decide) (by decide) rfl (by decide) (Nat.le_refl 2)
      (fun h hh => by cases hh; decide)).1,
   (get_autoindex_flow sampleRuntime indexMissingVfs "/" { autoIndex := some "index.html" }
      { method := "GET", pathname := "/docs/", bucketId := some "b",
        range := some "bytes=0-99" } 2 "/docs/" "index.html"
      (Or.inl rfl) (by decide) (by decide) rfl (by decide) (Nat.le_refl 2)
      (fun h hh => by cases hh; decide)).2.1,
   by decide⟩

/-! ## The range option -/

/-- C10, as stated, fails: for the header `a=b=0-5`, of the form
unit `a=b`, start `0`, end `5`, the text after the first `=` is split, and
`options.range.start` is `NaN`, not `0`; and for `bytes=9007199254740993-`
the start is stored as the double 9007199254740992, not as the integer
value of the digits. -/
theorem range_start_not_integer_value :
    ((getOptions { method := "GET", pathname := "/a", range := some "a=b=0-5" }).map
        (fun o => o.range)
      = Except.ok (some { start := some JsNum.nan, end_ := some (JsNum.int 5), etag := none }))
    ∧ ((getOptions { method := "GET", pathname := "/a",
                     range := some "bytes=9007199254740993-" }).map (fun o => o.range)
      = Except.ok (some { start := some (JsNum.int 9007199254740992), end_ := none,
                          etag := none }))
    ∧ Nat.ofDigits 10 (("9007199254740993".data.map (fun c => c.toNat - 48)).reverse)
      = 9007199254740993 := by
  decide

/-- C10, amended: for a GET whose `Range` header is a unit that holds no
`=`, then `=`, start, `-` and end, where start and end are possibly empty
strings of decimal digits whose integer values are at most `2 ^ 53`,
`options.range.start` is the integer value of start when start is not empty
and absent otherwise, `options.range.end` likewise, and `options.range.etag`
is the `If-Range` value when that header is present and absent otherwise; a
GET without a `Range` header gets options without `range`. The integer
value of a digit string is `Nat.ofDigits 10` of its digits. -/
theorem get_range_option (req : Request) (unit start end_ : String)
    (hr : req.range = some (unit ++ "=" ++ start ++ "-" ++ end_))
    (hu : '=' ∉ unit.data) (hs : ∀ c ∈ start.data, isDecDigit c = true)
    (he : ∀ c ∈ end_.data, isDecDigit c = true)
    (hsv : Nat.ofDigits 10 ((start.data.map (fun c => c.toNat - 48)).reverse) ≤ 2 ^ 53)
    (hev : Nat.ofDigits 10 ((end_.data.map (fun c => c.toNat - 48)).reverse) ≤ 2 ^ 53) :
    (getOptions req).map (fun o => o.range)
      = Except.ok (some
          { start := if start.data = [] then none
              else some (JsNum.int
                (Nat.ofDigits 10 ((start.data.map (fun c => c.toNat - 48)).reverse) : Nat)),
            end_ := if end_.data = [] then none
              else some (JsNum.int
                (Nat.ofDigits 10 ((end_.data.map (fun c => c.toNat - 48)).reverse) : Nat)),
            etag := req.ifRange })
    ∧ ∀ r : Request, r.range = none → (getOptions r).map (fun o => o.range) = Except.ok none
    := by
  rw [← digitsValue_eq_ofDigits] at hsv hev
  rw [← digitsValue_eq_ofDigits, ← digitsValue_eq_ofDigits]
  constructor
  · unfold getOptions
    simp only [hr, parseRange_form unit start end_ req.ifRange hu hs he hsv hev]
    rfl
  · intro r h
    unfold getOptions
    simp only [h]
    cases r.ifNoneMatch <;> rfl

/-- The C10 theorem at `Range: bytes=5-99` with `If-Range: "v1"`. -/
theorem get_range_option_witness :
    (getOptions { method := "GET", pathname := "/a", range := some "bytes=5-99",
                  ifRange := some "\"v1\"" }).map (fun o => o.range)
      = Except.ok (some
          { start := if "5".data = [] then none
              else some (JsNum.int
                (Nat.ofDigits 10 (("5".data.map (fun c => c.toNat - 48)).reverse) : Nat)),
            end_ := if "99".data = [] then none
              else some (JsNum.int
                (Nat.ofDigits 10 (("99".data.map (fun c => c.toNat - 48)).reverse) : Nat)),
            etag := some "\"v1\"" }) :=
  (get_range_option { method := "GET", pathname := "/a", range := some "bytes=5-99",
                      ifRange := some "\"v1\"" } "bytes" "5" "99" rfl (by decide) (by decide)
    (by decide) (by decide) (by decide)).1

end Restful
